import Mathlib

set_option maxRecDepth 8000

/-!
Shallow embedding of `src/script.js` (the DraftImage coordination-spreadsheet
sync script) and proofs of its specification claims.

Modelling conventions:
  * A JavaScript value that can be a string, number, boolean or `undefined`
    is `Option JSVal` (`none` is `undefined`).  Babel literal nodes carry a
    `.value`; `NumericLiteral` values are modelled with `Int` (no claim
    touches numeric contents).
  * A spreadsheet row (and a candidate row built by `createRow`) is a
    `List (Option JSVal)`; JavaScript indexing `row[i]` is `jsIndex`,
    yielding `undefined` out of bounds exactly as in JS.
  * Thrown exceptions are `Except String`, carrying the message the JS
    engine or the script would produce.
  * The remote Sheets API is an environment (`Env`) providing the responses
    the script would receive; the calls the script makes are recorded in an
    explicit trace (`RemoteCall`), so frame properties are statements about
    the trace.
-/

/-- A defined JavaScript primitive value as carried by a Babel literal node. -/
inductive JSVal
  | str (s : String)
  | num (n : Int)
  | bool (b : Bool)
deriving DecidableEq, Repr

/-- A JavaScript value that may be `undefined` (`none`). -/
abbrev Value := Option JSVal

/-- A spreadsheet row / candidate row: an array of possibly-undefined cells. -/
abbrev Row := List Value

/-- JavaScript array indexing `row[i]`: the element when in bounds, otherwise
`undefined`. -/
def jsIndex (row : Row) (i : Nat) : Value :=
  (row.get? i).getD none

/-- The `SPREADSHEET_ID` constant from the script. -/
def SPREADSHEET_ID : String := "1vRgcJ17_FezC7tbm6qS2OIb6mZVETLYVagDstE3a-DM"

/-- The `SHEET_NAME` constant from the script. -/
def SHEET_NAME : String := "DraftImage"

/-- One entry of the `COLUMNS_BY_ID` table. -/
structure Column where
  index : Nat
  columnName : String
  title : String
deriving DecidableEq, Repr

/-- The `COLUMNS_BY_ID` lookup table, in JS object insertion order. -/
def COLUMNS_BY_ID : List (String × Column) := [
  ("uuid", ⟨0, "A", "UUID"⟩),
  ("originalUrl", ⟨1, "B", "Original URL"⟩),
  ("comment", ⟨2, "C", "Comment"⟩),
  ("document", ⟨3, "D", "Document"⟩),
  ("figmaUrl", ⟨4, "E", "Figma URL"⟩),
  ("designReview", ⟨5, "F", "Design Review"⟩),
  ("newUrl", ⟨6, "G", "New URL to add to jsx-images.mathspace.co"⟩),
  ("editorReview", ⟨7, "H", "Editor review"⟩),
  ("addedToWorksheet", ⟨8, "I", "Added to Worksheet?"⟩)]

/-- Models `columnIndexFor(columnId)`: `COLUMNS_BY_ID[columnId].index`.  The script
only ever calls it with keys present in the table (an unknown key would be a
TypeError in JS; the default `0` is never exercised). -/
def columnIndexFor (columnId : String) : Nat :=
  (((COLUMNS_BY_ID.find? (fun p => p.1 == columnId)).map (fun p => p.2.index)).getD 0)

/-- Models `columnNameFor(columnId)`: `COLUMNS_BY_ID[columnId].columnName`. -/
def columnNameFor (columnId : String) : String :=
  (((COLUMNS_BY_ID.find? (fun p => p.1 == columnId)).map (fun p => p.2.columnName)).getD "")

/-- An apostrophe character, used when building JS message strings. -/
def apos : String := String.singleton (Char.ofNat 39)

/-- Lower-case hexadecimal digit. -/
def hexDigit (n : Nat) : Char :=
  if n < 10 then Char.ofNat (48 + n) else Char.ofNat (87 + n)

/-- Four-digit lower-case hexadecimal rendering, as in a JSON `\uXXXX` escape. -/
def hex4 (n : Nat) : String :=
  String.mk [hexDigit (n / 4096 % 16), hexDigit (n / 256 % 16),
             hexDigit (n / 16 % 16), hexDigit (n % 16)]

/-- Escape of one character under `JSON.stringify` string rendering. -/
def jsonEscapeChar (c : Char) : String :=
  if c = Char.ofNat 34 then String.mk [Char.ofNat 92, Char.ofNat 34]
  else if c = Char.ofNat 92 then String.mk [Char.ofNat 92, Char.ofNat 92]
  else if c = Char.ofNat 8 then String.mk [Char.ofNat 92, Char.ofNat 98]
  else if c = Char.ofNat 12 then String.mk [Char.ofNat 92, Char.ofNat 102]
  else if c = Char.ofNat 10 then String.mk [Char.ofNat 92, Char.ofNat 110]
  else if c = Char.ofNat 13 then String.mk [Char.ofNat 92, Char.ofNat 114]
  else if c = Char.ofNat 9 then String.mk [Char.ofNat 92, Char.ofNat 116]
  else if c.toNat < 32 then String.mk [Char.ofNat 92, Char.ofNat 117] ++ hex4 c.toNat
  else String.singleton c

/-- Models `JSON.stringify(s)` for a string `s`. -/
def jsonStringifyStr (s : String) : String :=
  String.singleton (Char.ofNat 34) ++ String.join (s.toList.map jsonEscapeChar)
    ++ String.singleton (Char.ofNat 34)

/-- Rendering of `JSON.stringify(v)` inside a template literal, for the
possibly-undefined values the script interpolates (a JS template literal
turns `JSON.stringify(undefined) = undefined` into the text `undefined`). -/
def jsonStringifyVal : Value → String
  | none => "undefined"
  | some (.str s) => jsonStringifyStr s
  | some (.num n) => toString n
  | some (.bool b) => if b then "true" else "false"

/-- Number of expected columns: `Object.keys(COLUMNS_BY_ID).length`. -/
def expectedNumCols : Nat := COLUMNS_BY_ID.length

/-- Shared first sentence of both structure-validation error messages. -/
def structureErrorPrefix : String :=
  "Someone has modified the spreadsheet structure in an invalid way."

/-- Error message for a column-count mismatch (the two template strings
joined with a space, as in the script). -/
def countMismatchMessage (actual : Nat) : String :=
  structureErrorPrefix ++ " There should be " ++ toString expectedNumCols
    ++ " columns, instead there were " ++ toString actual ++ " columns."

/-- Error message for a title mismatch at column `i`. -/
def titleMismatchMessage (i : Nat) (expectedTitle : String) (actualValue : Value) : String :=
  structureErrorPrefix ++ " The " ++ toString i ++ "th column should be called "
    ++ jsonStringifyStr expectedTitle ++ ", instead it" ++ apos
    ++ "s called: " ++ jsonStringifyVal actualValue

/-- The `Object.values(COLUMNS_BY_ID).forEach((column, i) => ...)` loop:
throws at the first column whose title differs from `row[i]`. -/
def checkTitles (row : Row) : Nat → List Column → Except String Unit
  | _, [] => .ok ()
  | i, c :: cs =>
    let remoteValue := jsIndex row i
    if remoteValue ≠ some (.str c.title) then
      .error (titleMismatchMessage i c.title remoteValue)
    else
      checkTitles row (i + 1) cs

/-- Models `validateSheetStructure`, applied to the fetched header row (the script
fetches range `SHEET_NAME!1:1` and reads `values[0]`). -/
def validateSheetStructure (row : Row) : Except String Unit :=
  if row.length ≠ expectedNumCols then
    .error (countMismatchMessage row.length)
  else
    checkTitles row 0 (COLUMNS_BY_ID.map (fun p => p.2))

/-- The nine expected header titles, in order. -/
def expectedTitles : List String := COLUMNS_BY_ID.map (fun p => p.2.title)

/-- The header row exactly matching the schema. -/
def expectedHeaderRow : Row := expectedTitles.map (fun t => some (.str t))

/-- A JSX expression inside a `{...}` container.  Babel literal nodes
(`StringLiteral`, `NumericLiteral`, `BooleanLiteral`) carry a `.value`
property; every other expression form (identifier, call, template,
`NullLiteral`, empty expression, ...) has no `.value`, so reading it gives
`undefined`. -/
inductive JSXExpr
  | lit (v : JSVal)
  | nonLit
deriving DecidableEq, Repr

/-- The `value` node of a `JSXAttribute`: a plain string literal, an
expression container, or a JSX element/fragment value. -/
inductive JSXAttrValue
  | strLit (s : String)
  | exprContainer (e : JSXExpr)
  | elementValue
deriving DecidableEq, Repr

/-- An attribute of a JSX opening element: a named `JSXAttribute` (whose
value is absent for bare attributes such as `<D id />`) or a
`JSXSpreadAttribute` (which has no `name` node). -/
inductive JSXAttr
  | named (name : String) (value : Option JSXAttrValue)
  | spread
deriving DecidableEq, Repr

/-- A `JSXOpeningElement` node as the script inspects it: its tag name text
and its attribute list.  (A member-expression tag such as `<Foo.Bar>` reads
as a name different from the sentinel, which is all the script observes.) -/
structure JSXOpeningElement where
  name : String
  attributes : List JSXAttr
deriving DecidableEq, Repr

/-- Message of the TypeError raised when `a.name.name` is read on a
`JSXSpreadAttribute` (whose `name` is `undefined`). -/
def typeErrorMessage : String :=
  "TypeError: Cannot read properties of undefined (reading " ++ apos
    ++ "name" ++ apos ++ ")"

/-- Models `path.node.attributes.find(a => a.name.name === attributeName)`:
returns the first attribute whose name matches (its `value` node), `none`
when no attribute matches, and throws a TypeError upon reaching a spread
attribute. -/
def findAttrValue (attributeName : String) : List JSXAttr → Except String (Option (Option JSXAttrValue))
  | [] => .ok none
  | .spread :: _ => .error typeErrorMessage
  | .named n v :: rest =>
    if n == attributeName then .ok (some v) else findAttrValue attributeName rest

/-- Models `value.expression.value` for the expression inside a container:
literal nodes expose their value, anything else reads as `undefined`. -/
def exprJSValue : JSXExpr → Option JSVal
  | .lit v => some v
  | .nonLit => none

/-- Models `getAttributeValue(attributeName, path)` from the script. -/
def getAttributeValue (attributeName : String) (attrs : List JSXAttr) : Except String (Option JSVal) :=
  match findAttrValue attributeName attrs with
  | .error e => .error e
  | .ok none => .ok none
  | .ok (some value) =>
    match value with
    | some (.strLit s) => .ok (some (.str s))
    | some (.exprContainer e) => .ok (exprJSValue e)
    | _ => .ok none

/-- Accumulator pass of JS `String.prototype.split` with a one-character
separator: split at every occurrence, keeping empty segments (so splitting
the empty string yields one empty segment, as in JS). -/
def splitCharAux (sep : Char) : List Char → List Char → List String
  | [], acc => [String.mk acc.reverse]
  | c :: cs, acc =>
    if c = sep then String.mk acc.reverse :: splitCharAux sep cs []
    else splitCharAux sep cs (c :: acc)

/-- JS `s.split(sep)` for a one-character separator (the script only splits
on the path separator and on the newline). -/
def jsSplit (sep : Char) (s : String) : List String :=
  splitCharAux sep s.toList []

/-- JS `s.endsWith(suffix)`. -/
def jsEndsWith (s suffix : String) : Bool :=
  suffix.toList.isSuffixOf s.toList

/-- The path separator character. -/
def pathSep : Char := Char.ofNat 47

/-- The newline character. -/
def newlineChar : Char := Char.ofNat 10

/-- Models `documentName(filePath)`: `filePath.split(sep).slice(-1)[0]` with `sep`
the path separator — the final segment of the split (`slice(-1)` of a
non-empty array is its last element; `split` never returns an empty
array). -/
def documentName (filePath : String) : String :=
  (jsSplit pathSep filePath).getLastD ""

/-- Models `createRow({...})` as called from `main`: the first four fields are
passed, the remaining five take their JS default-parameter values
(`figmaUrl = old-empty, designReview = No review, newUrl = empty,
editorReview = No review, addedToWorksheet = empty`). -/
def createRow (uuid originalUrl comment document : Value) : Row :=
  [uuid, originalUrl, comment, document,
   some (.str ""), some (.str "No review"), some (.str ""),
   some (.str "No review"), some (.str "")]

/-- Body of the `JSXOpeningElement` visitor for one matching element:
extract the three attributes and build the row. -/
def extractRow (filePath : String) (el : JSXOpeningElement) : Except String Row := do
  let id ← getAttributeValue "id" el.attributes
  let url ← getAttributeValue "url" el.attributes
  let notesForImageCreator ← getAttributeValue "notesForImageCreator" el.attributes
  .ok (createRow id url notesForImageCreator (some (.str (documentName filePath))))

/-- The traversal over one file: visit the opening elements in order,
handling those whose tag name is the sentinel; the first thrown TypeError
aborts the traversal. -/
def extractFromElements (filePath : String) : List JSXOpeningElement → Except String (List Row)
  | [] => .ok []
  | el :: rest =>
    if el.name == "DraftImage" then do
      let row ← extractRow filePath el
      let rows ← extractFromElements filePath rest
      .ok (row :: rows)
    else
      extractFromElements filePath rest

/-- The `for (const filePath of jsxFilePaths)` loop: read and parse each
file (any parse failure aborts the run) and accumulate the rows in file
order, in-file occurrence order. -/
def collectRows (files : String → Except String (List JSXOpeningElement)) :
    List String → Except String (List Row)
  | [] => .ok []
  | p :: rest => do
    let els ← files p
    let rows ← extractFromElements p els
    let more ← collectRows files rest
    .ok (rows ++ more)

/-- Models `execSync(git diff ...).split(newline).filter(Boolean)` — a string is
truthy in JS exactly when it is non-empty. -/
def changedFilePaths (gitDiffOutput : String) : List String :=
  (jsSplit newlineChar gitDiffOutput).filter (fun s => s != "")

/-- Models `changedFilePaths.filter(filePath => filePath.endsWith(jsx-extension))`. -/
def jsxFilter (paths : List String) : List String :=
  paths.filter (fun filePath => jsEndsWith filePath ".jsx")

/-- Models `getResponse.data.values.slice(1).map(row => row[0])`: the existing
identifiers, column 0 of each data row (header row excluded). -/
def idsList (remoteValues : List Row) : List Value :=
  (remoteValues.drop 1).map (fun row => jsIndex row 0)

/-- Models `maybeRowsToAppend.filter(row => !ids.has(row[columnIndexFor(uuid)]))`:
candidates whose identifier is not already present remotely.  (`Set.has`
is membership in the mapped list.) -/
def rowsToAppend (remoteValues : List Row) (maybeRowsToAppend : List Row) : List Row :=
  maybeRowsToAppend.filter
    (fun row => !((idsList remoteValues).contains (jsIndex row (columnIndexFor "uuid"))))

/-- Models `new Set(maybeRowsToAppend.map(row => row[columnIndexFor(uuid)]))`:
all candidate identifiers of this run, appended or not. -/
def idsFromWorksheets (maybeRowsToAppend : List Row) : List Value :=
  maybeRowsToAppend.map (fun row => jsIndex row (columnIndexFor "uuid"))

/-- Remote data rows whose `addedToWorksheet` cell is not the literal
marker, projected to their column-0 identifiers. -/
def unactionedIdsFromSpreadsheet (remoteValues : List Row) : List Value :=
  ((remoteValues.drop 1).filter
      (fun row => jsIndex row (columnIndexFor "addedToWorksheet") != some (.str "TRUE"))).map
    (fun row => jsIndex row 0)

/-- The `for (const id of unactionedIdsFromSpreadsheet)` loop building
`missingIds`: unactioned identifiers absent from this run's candidates. -/
def missingIds (remoteValues : List Row) (maybeRowsToAppend : List Row) : List Value :=
  (unactionedIdsFromSpreadsheet remoteValues).filter
    (fun id => !((idsFromWorksheets maybeRowsToAppend).contains id))

/-- One call the script makes against the remote spreadsheet service:
`spreadsheets.values.get` or `spreadsheets.values.append`.  The script has
no update or delete call sites, so no such constructor exists. -/
inductive RemoteCall
  | getValues (spreadsheetId : String) (range : String)
  | appendValues (spreadsheetId : String) (range : String)
      (valueInputOption : String) (values : List Row)
deriving DecidableEq, Repr

/-- The a1-notation range of the header fetch, `SHEET_NAME!1:1`. -/
def headerRange : String := SHEET_NAME ++ "!1:1"

/-- The `Appended N rows ...` success message. -/
def summaryMessage (n : Nat) : String :=
  "Appended " ++ toString n ++ " rows to the <DraftImage> coordination spreadsheet"

/-- What a completed run printed: the warning list (empty when no warning
was emitted) and the final summary line (`none` on the early exit, which
prints nothing). -/
structure RunOutcome where
  missingIds : List Value
  summary : Option String
deriving DecidableEq, Repr

/-- Result of one invocation of `main`: the remote calls it performed, in
order, up to normal return or the first uncaught exception (which the
top-level catch turns into exit code 1). -/
structure RunResult where
  calls : List RemoteCall
  result : Except String RunOutcome

/-- The environment a run executes against: the `git diff` output, the
per-path parse results of `readFileSync` + `parser.parse` (a parse or read
failure is the thrown error), and the two fetch responses the Sheets
service would return. -/
structure Env where
  gitDiffOutput : String
  files : String → Except String (List JSXOpeningElement)
  headerRow : Row
  remoteValues : List Row

/-- Models `main()` from the script, as a function of its environment (named
`mainRun` because Lean reserves `main` for an executable entry point). -/
def mainRun (env : Env) : RunResult :=
  let jsxFilePaths := jsxFilter (changedFilePaths env.gitDiffOutput)
  if jsxFilePaths.isEmpty then
    ⟨[], .ok ⟨[], none⟩⟩
  else
    let headerCall := RemoteCall.getValues SPREADSHEET_ID headerRange
    match validateSheetStructure env.headerRow with
    | .error e => ⟨[headerCall], .error e⟩
    | .ok () =>
      match collectRows env.files jsxFilePaths with
      | .error e => ⟨[headerCall], .error e⟩
      | .ok maybeRowsToAppend =>
        let valuesCall := RemoteCall.getValues SPREADSHEET_ID SHEET_NAME
        let toAppend := rowsToAppend env.remoteValues maybeRowsToAppend
        let appendCall := RemoteCall.appendValues SPREADSHEET_ID SHEET_NAME "RAW" toAppend
        let missing := missingIds env.remoteValues maybeRowsToAppend
        ⟨[headerCall, valuesCall, appendCall],
         .ok ⟨missing, some (summaryMessage toAppend.length)⟩⟩

/-- Total attribute lookup on spread-free attribute lists: the value
`getAttributeValue` computes when no TypeError intervenes (first matching
named attribute; string literal verbatim, literal expression value,
`undefined` otherwise).  Spread attributes are skipped here; the
correspondence with `getAttributeValue` is proved only for spread-free
lists, where the skip branch is never taken. -/
def lookupAttrValue (attributeName : String) : List JSXAttr → Value
  | [] => none
  | .spread :: rest => lookupAttrValue attributeName rest
  | .named n v :: rest =>
    if n == attributeName then
      match v with
      | some (.strLit s) => some (.str s)
      | some (.exprContainer e) => exprJSValue e
      | _ => none
    else lookupAttrValue attributeName rest

/-- The row `main` builds for one matching element of `filePath`. -/
def elementRow (filePath : String) (el : JSXOpeningElement) : Row :=
  createRow (lookupAttrValue "id" el.attributes)
    (lookupAttrValue "url" el.attributes)
    (lookupAttrValue "notesForImageCreator" el.attributes)
    (some (.str (documentName filePath)))

/-! ## Helper lemmas -/

/-- Skipping a prefix of named attributes that do not match the requested
name. -/
theorem findAttrValue_append_of_no_match (name : String) (pre rest : List JSXAttr)
    (h : ∀ a ∈ pre, ∃ n v, a = JSXAttr.named n v ∧ n ≠ name) :
    findAttrValue name (pre ++ rest) = findAttrValue name rest := by
  induction pre with
  | nil => rfl
  | cons a as ih =>
    obtain ⟨n, v, rfl, hn⟩ := h a (List.mem_cons_self a as)
    simp only [List.cons_append, findAttrValue, beq_iff_eq, if_neg hn]
    exact ih (fun a ha => h a (List.mem_cons_of_mem _ ha))

/-- On a spread-free attribute list, `getAttributeValue` never throws and
computes `lookupAttrValue`. -/
theorem getAttributeValue_eq_lookup (name : String) (attrs : List JSXAttr)
    (h : ∀ a ∈ attrs, a ≠ JSXAttr.spread) :
    getAttributeValue name attrs = .ok (lookupAttrValue name attrs) := by
  induction attrs with
  | nil => rfl
  | cons a as ih =>
    match a with
    | .spread => exact absurd rfl (h _ (List.mem_cons_self _ _))
    | .named n v =>
      have ih := ih (fun a ha => h a (List.mem_cons_of_mem _ ha))
      by_cases hn : n = name
      · subst hn
        cases v with
        | none => simp [getAttributeValue, findAttrValue, lookupAttrValue]
        | some value =>
          cases value with
          | strLit s => simp [getAttributeValue, findAttrValue, lookupAttrValue]
          | exprContainer e => simp [getAttributeValue, findAttrValue, lookupAttrValue]
          | elementValue => simp [getAttributeValue, findAttrValue, lookupAttrValue]
      · simp only [getAttributeValue, findAttrValue, lookupAttrValue, beq_iff_eq,
          if_neg hn] at ih ⊢
        exact ih

/-- The title loop succeeds at offset `k` exactly when every remaining
column title matches. -/
theorem checkTitles_ok_iff (row : Row) (cols : List Column) : ∀ (k : Nat),
    checkTitles row k cols = .ok () ↔
      ∀ j, j < cols.length →
        jsIndex row (k + j) = some (.str ((cols.getD j ⟨0, "", ""⟩).title)) := by
  induction cols with
  | nil => intro k; simp [checkTitles]
  | cons c cs ih =>
    intro k
    simp only [checkTitles]
    by_cases h : jsIndex row k = some (.str c.title)
    · rw [if_neg (not_not_intro h), ih (k + 1)]
      constructor
      · intro hok j hj
        cases j with
        | zero => simpa using h
        | succ j =>
          have hx := hok j (by simp at hj; omega)
          have e : k + (j + 1) = k + 1 + j := by omega
          rw [e]
          simpa using hx
      · intro hall j hj
        have hx := hall (j + 1) (by simp; omega)
        have e : k + 1 + j = k + (j + 1) := by omega
        rw [e]
        simpa using hx
    · rw [if_pos h]
      constructor
      · intro hFalse; simp at hFalse
      · intro hall
        exact absurd (by simpa using hall 0 (by simp)) h

/-- The title loop throws the mismatch error of the first mismatching
column. -/
theorem checkTitles_first_mismatch (row : Row) (cols : List Column) : ∀ (k i : Nat),
    i < cols.length →
    (∀ j, j < i → jsIndex row (k + j) = some (.str ((cols.getD j ⟨0, "", ""⟩).title))) →
    jsIndex row (k + i) ≠ some (.str ((cols.getD i ⟨0, "", ""⟩).title)) →
    checkTitles row k cols = .error
      (titleMismatchMessage (k + i) ((cols.getD i ⟨0, "", ""⟩).title) (jsIndex row (k + i))) := by
  induction cols with
  | nil => intro k i hi; simp at hi
  | cons c cs ih =>
    intro k i hi hprev hmis
    cases i with
    | zero =>
      simp only [checkTitles]
      simp only [List.getD_cons_zero, Nat.add_zero] at hmis ⊢
      rw [if_pos hmis]
    | succ i =>
      have h0 : jsIndex row k = some (.str c.title) := by
        simpa using hprev 0 (by simp)
      simp only [checkTitles]
      rw [if_neg (not_not_intro h0)]
      have e : k + (i + 1) = k + 1 + i := by omega
      have hx := ih (k + 1) i (by simp at hi; omega)
        (fun j hj => by
          have hy := hprev (j + 1) (by simp; omega)
          have e2 : k + (j + 1) = k + 1 + j := by omega
          rw [e2] at hy
          simpa using hy)
        (by have hm := hmis; rw [e] at hm; simpa using hm)
      simp only [List.getD_cons_succ]
      rw [e]
      exact hx

/-- With no separator among the remaining characters, the split yields the
single pending segment. -/
theorem splitCharAux_no_sep (sep : Char) : ∀ (cs acc : List Char), sep ∉ cs →
    splitCharAux sep cs acc = [String.mk (acc.reverse ++ cs)] := by
  intro cs
  induction cs with
  | nil => intro acc h; simp [splitCharAux]
  | cons c cs ih =>
    intro acc h
    have hc : c ≠ sep := fun e => h (e ▸ List.mem_cons_self c cs)
    have hcs : sep ∉ cs := fun e => h (List.mem_cons_of_mem c e)
    simp only [splitCharAux, if_neg hc]
    rw [ih (c :: acc) hcs]
    simp

/-- The last segment of a split is determined by the characters after the
last separator. -/
theorem splitCharAux_getLastD (sep : Char) (ys : List Char) (hys : sep ∉ ys) :
    ∀ (xs acc : List Char) (d : String),
      (splitCharAux sep (xs ++ sep :: ys) acc).getLastD d = String.mk ys := by
  intro xs
  induction xs with
  | nil =>
    intro acc d
    simp only [List.nil_append, splitCharAux, if_pos rfl, if_true]
    rw [List.getLastD_cons, splitCharAux_no_sep sep ys [] hys]
    simp
  | cons x xs ih =>
    intro acc d
    by_cases hx : x = sep
    · subst hx
      simp only [List.cons_append, splitCharAux, if_pos rfl, if_true]
      rw [List.getLastD_cons]
      exact ih [] _
    · simp only [List.cons_append, splitCharAux, if_neg hx]
      exact ih (x :: acc) d

/-- Applying `documentName` to a path that ends in a separator-free final segment gives
that segment, verbatim. -/
theorem documentName_final_segment (dir base : String) (h : pathSep ∉ base.toList) :
    documentName (dir ++ String.singleton pathSep ++ base) = base := by
  unfold documentName jsSplit
  have hdata : (dir ++ String.singleton pathSep ++ base).toList
      = dir.toList ++ pathSep :: base.toList := by
    simp [String.toList, String.singleton_eq]
  rw [hdata, splitCharAux_getLastD pathSep base.toList h dir.toList [] ""]
  rfl

/-! ## Claim theorems -/

/-- C6: Change-set filtering.  For every list of changed file paths, the
filtered result is a sublist of the input (hence in original order), equals
the input filtered by the suffix test, and contains a path exactly when it
occurs in the input and ends in the target extension. -/
theorem changeSetFiltering_spec (paths : List String) :
    (jsxFilter paths).Sublist paths ∧
    jsxFilter paths = paths.filter (fun p => decide ((".jsx").toList <:+ p.toList)) ∧
    ∀ p, p ∈ jsxFilter paths ↔ p ∈ paths ∧ (".jsx").toList <:+ p.toList := by
  refine ⟨List.filter_sublist paths, ?_, fun p => ?_⟩
  · apply List.filter_congr
    intro a _
    rw [Bool.eq_iff_iff]
    simp [jsEndsWith, List.isSuffixOf_iff_suffix]
  · simp [jsxFilter, List.mem_filter, jsEndsWith, List.isSuffixOf_iff_suffix]

/-- C1: Reconciler dedup.  The appended rows form a sublist of the
candidates (discovery order preserved); a row is appended exactly when it
is a candidate whose identifier (cell 0) is not among the existing
identifiers; and on existing identifiers A, B with candidates A, C, D,
exactly the C and D rows are appended, in that order. -/
theorem reconcilerDedup_spec (remoteValues maybeRows : List Row) :
    (rowsToAppend remoteValues maybeRows).Sublist maybeRows ∧
    (∀ r, r ∈ rowsToAppend remoteValues maybeRows ↔
        r ∈ maybeRows ∧ jsIndex r 0 ∉ idsList remoteValues) ∧
    rowsToAppend
        [[some (.str "UUID")], [some (.str "A")], [some (.str "B")]]
        [createRow (some (.str "A")) none none none,
         createRow (some (.str "C")) none none none,
         createRow (some (.str "D")) none none none] =
      [createRow (some (.str "C")) none none none,
       createRow (some (.str "D")) none none none] := by
  have hidx : columnIndexFor "uuid" = 0 := rfl
  refine ⟨List.filter_sublist maybeRows, fun r => ?_, rfl⟩
  simp [rowsToAppend, List.mem_filter, hidx, List.contains, List.elem_eq_mem]

/-- C9: Same-run duplicates are deduplicated only against the remote set:
any candidate row whose identifier is absent remotely keeps its full
multiplicity in the appended list, and two candidates sharing a fresh
identifier are both appended. -/
theorem sameRunDuplicates_spec :
    (∀ (remoteValues maybeRows : List Row) (r : Row),
      jsIndex r (columnIndexFor "uuid") ∉ idsList remoteValues →
      (rowsToAppend remoteValues maybeRows).count r = maybeRows.count r) ∧
    rowsToAppend [[some (.str "UUID")]]
        [createRow (some (.str "C")) none none none,
         createRow (some (.str "C")) none none none] =
      [createRow (some (.str "C")) none none none,
       createRow (some (.str "C")) none none none] := by
  constructor
  · intro remoteValues maybeRows r h
    apply List.count_filter
    simp [List.contains, List.elem_eq_mem, h]
  · rfl

/-- C9 witness: two candidates with the same fresh identifier C both keep
their multiplicity against a remote sheet holding only the header. -/
theorem sameRunDuplicates_spec_witness :
    (rowsToAppend [[some (.str "UUID")]]
        [createRow (some (.str "C")) none none none,
         createRow (some (.str "C")) none none none]).count
      (createRow (some (.str "C")) none none none) = 2 := by
  rw [sameRunDuplicates_spec.1 [[some (.str "UUID")]]
    [createRow (some (.str "C")) none none none,
     createRow (some (.str "C")) none none none]
    (createRow (some (.str "C")) none none none) (by decide)]
  rfl


/-- C2: Reconciler warning.  A value is reported missing exactly when it is
the column-0 identifier of an existing data row (header excluded) whose
addedToWorksheet cell is not the literal TRUE marker and it is absent from
the full candidate-identifier set (appended or not); on remote unactioned
identifiers X, Y, Z and candidate identifiers Y the warning list is exactly
X, Z; and the warning never fails a run: whenever validation and parsing
succeed, the run result is a success whatever the warning list is. -/
theorem reconcilerWarning_spec :
    (∀ (remoteValues maybeRows : List Row) (v : Value),
      v ∈ missingIds remoteValues maybeRows ↔
        ((∃ row ∈ remoteValues.drop 1,
            jsIndex row (columnIndexFor "addedToWorksheet") ≠ some (.str "TRUE") ∧
            jsIndex row 0 = v) ∧
          v ∉ idsFromWorksheets maybeRows)) ∧
    missingIds
        [[some (.str "UUID")],
         [some (.str "X"), none, none, none, none, none, none, none, some (.str "FALSE")],
         [some (.str "Y")],
         [some (.str "Z"), none, none, none, none, none, none, none, none],
         [some (.str "W"), none, none, none, none, none, none, none, some (.str "TRUE")]]
        [createRow (some (.str "Y")) none none none] =
      [some (.str "X"), some (.str "Z")] ∧
    (∀ env : Env,
      validateSheetStructure env.headerRow = .ok () →
      (collectRows env.files (jsxFilter (changedFilePaths env.gitDiffOutput))).isOk = true →
      ((mainRun env).result).isOk = true) := by
  refine ⟨fun remoteValues maybeRows v => ?_, rfl, fun env hval hcol => ?_⟩
  · simp only [missingIds, unactionedIdsFromSpreadsheet, List.mem_filter, List.mem_map,
      List.contains, List.elem_eq_mem, bne_iff_ne, Bool.not_eq_true', decide_eq_false_iff_not]
    constructor
    · rintro ⟨⟨row, ⟨hrow, hmark⟩, hv⟩, hnot⟩
      exact ⟨⟨row, hrow, by simpa using hmark, hv⟩, hnot⟩
    · rintro ⟨⟨row, hrow, hmark, hv⟩, hnot⟩
      exact ⟨⟨row, ⟨hrow, by simpa using hmark⟩, hv⟩, hnot⟩
  · simp only [mainRun]
    split
    · rfl
    · rw [hval]
      rcases hc : collectRows env.files (jsxFilter (changedFilePaths env.gitDiffOutput))
        with e | rows
      · rw [hc] at hcol; simp [Except.isOk, Except.toBool] at hcol
      · simp [Except.isOk, Except.toBool]

/-- C2 witness: a run over one changed jsx file that parses to no elements,
against a remote sheet holding only the correct header, reaches the warning
step and succeeds. -/
theorem reconcilerWarning_spec_witness :
    ((mainRun ⟨"a.jsx", fun _ => .ok [], expectedHeaderRow, []⟩).result).isOk = true :=
  reconcilerWarning_spec.2.2 ⟨"a.jsx", fun _ => .ok [], expectedHeaderRow, []⟩ rfl rfl

/-- C7: Early exit.  Whenever no changed file path ends in the target
extension, the run returns successfully with no remote call recorded, no
warning and no summary. -/
theorem earlyExit_spec (env : Env)
    (h : jsxFilter (changedFilePaths env.gitDiffOutput) = []) :
    mainRun env = ⟨[], .ok ⟨[], none⟩⟩ := by
  simp [mainRun, h]

/-- C7 witness: a diff yielding only two txt files exits early with no
remote calls. -/
theorem earlyExit_spec_witness :
    mainRun ⟨"a.txt\nb.txt", fun _ => .ok [], [], []⟩ = ⟨[], .ok ⟨[], none⟩⟩ :=
  earlyExit_spec ⟨"a.txt\nb.txt", fun _ => .ok [], [], []⟩ rfl

/-- C8: Append-only frame.  The calls of any run are: none, or the single
header read, or the two reads followed by exactly one append whose value
input option is RAW and whose payload is verbatim the filtered candidate
rows.  No update or delete of existing rows exists in any trace. -/
theorem appendOnlyFrame_spec (env : Env) :
    (mainRun env).calls = [] ∨
    (mainRun env).calls = [RemoteCall.getValues SPREADSHEET_ID headerRange] ∨
    (∃ maybeRows,
      collectRows env.files (jsxFilter (changedFilePaths env.gitDiffOutput)) = .ok maybeRows ∧
      (mainRun env).calls =
        [RemoteCall.getValues SPREADSHEET_ID headerRange,
         RemoteCall.getValues SPREADSHEET_ID SHEET_NAME,
         RemoteCall.appendValues SPREADSHEET_ID SHEET_NAME "RAW"
           (rowsToAppend env.remoteValues maybeRows)]) := by
  simp only [mainRun]
  split
  · left; rfl
  · split
    · right; left; rfl
    · split
      · right; left; rfl
      · right; right
        exact ⟨_, by assumption, rfl⟩

/-- Bridge between the column table and the expected-title list. -/
theorem colsGetD_title (j : Nat) (hj : j < 9) :
    ((COLUMNS_BY_ID.map (fun p => p.2)).getD j (⟨0, "", ""⟩ : Column)).title
      = expectedTitles.getD j "" := by
  interval_cases j <;> rfl

/-- C3: Sheet schema validator.  There are nine expected columns;
validation succeeds exactly when the header row has nine cells matching
the expected titles in order; a wrong cell count raises the error naming
the expected and actual counts; a first title mismatch at position i
raises the error naming i, the expected title and the actual cell. -/
theorem sheetSchemaValidator_spec (row : Row) :
    expectedNumCols = 9 ∧
    (validateSheetStructure row = .ok () ↔
      (row.length = 9 ∧
        ∀ i, i < 9 → jsIndex row i = some (.str (expectedTitles.getD i "")))) ∧
    (row.length ≠ 9 →
      validateSheetStructure row = .error (countMismatchMessage row.length)) ∧
    (∀ i, row.length = 9 → i < 9 →
      (∀ j, j < i → jsIndex row j = some (.str (expectedTitles.getD j ""))) →
      jsIndex row i ≠ some (.str (expectedTitles.getD i "")) →
      validateSheetStructure row = .error
        (titleMismatchMessage i (expectedTitles.getD i "") (jsIndex row i))) := by
  have hcolslen : (COLUMNS_BY_ID.map (fun p => p.2)).length = 9 := rfl
  have hnum : expectedNumCols = 9 := rfl
  refine ⟨rfl, ?_, fun hne => ?_, fun i hlen hi hprev hmis => ?_⟩
  · by_cases hlen : row.length = 9
    · rw [validateSheetStructure, hnum, if_neg (not_not_intro hlen),
        checkTitles_ok_iff row (COLUMNS_BY_ID.map (fun p => p.2)) 0]
      constructor
      · intro hall
        refine ⟨hlen, fun i hi => ?_⟩
        have := hall i (by rw [hcolslen]; exact hi)
        rw [Nat.zero_add, colsGetD_title i hi] at this
        exact this
      · rintro ⟨-, hall⟩ j hj
        rw [hcolslen] at hj
        rw [Nat.zero_add, colsGetD_title j hj]
        exact hall j hj
    · rw [validateSheetStructure, hnum, if_pos hlen]
      constructor
      · intro h; simp at h
      · intro h; exact absurd h.1 hlen
  · rw [validateSheetStructure, hnum, if_pos hne]
  · rw [validateSheetStructure, hnum, if_neg (not_not_intro hlen)]
    have := checkTitles_first_mismatch row (COLUMNS_BY_ID.map (fun p => p.2)) 0 i
      (by rw [hcolslen]; exact hi)
      (fun j hj => by
        rw [Nat.zero_add, colsGetD_title j (by omega)]
        exact hprev j hj)
      (by rw [Nat.zero_add, colsGetD_title i hi]; exact hmis)
    rw [Nat.zero_add, colsGetD_title i hi] at this
    exact this

/-- C3 witness: the exact expected header validates; an empty header fails
with the count message for 0 columns; a header of nine blank cells fails at
position 0 naming the expected UUID title and the actual cell. -/
theorem sheetSchemaValidator_spec_witness :
    validateSheetStructure expectedHeaderRow = .ok () ∧
    validateSheetStructure [] = .error (countMismatchMessage 0) ∧
    validateSheetStructure (List.replicate 9 none) =
      .error (titleMismatchMessage 0 (expectedTitles.getD 0 "")
        (jsIndex (List.replicate 9 none) 0)) := by
  refine ⟨?_, ?_, ?_⟩
  · exact (sheetSchemaValidator_spec expectedHeaderRow).2.1.mpr ⟨rfl, by decide⟩
  · exact (sheetSchemaValidator_spec []).2.2.1 (by decide)
  · exact (sheetSchemaValidator_spec (List.replicate 9 none)).2.2.2 0 (by decide) (by decide)
      (fun j hj => absurd hj (by omega)) (by decide)

/-- C4: Attribute extraction.  The value of the first attribute carrying
the requested name determines the result: a literal-string value is
returned verbatim with no escaping transformation, and a non-literal
embedded expression yields undefined without throwing (the preceding
attributes being ordinary named attributes of other names, so the lookup
reaches the attribute). -/
theorem attributeExtraction_spec :
    (∀ (pre post : List JSXAttr) (name s : String),
      (∀ a ∈ pre, ∃ n v, a = JSXAttr.named n v ∧ n ≠ name) →
      getAttributeValue name (pre ++ JSXAttr.named name (some (.strLit s)) :: post) =
        .ok (some (.str s))) ∧
    (∀ (pre post : List JSXAttr) (name : String),
      (∀ a ∈ pre, ∃ n v, a = JSXAttr.named n v ∧ n ≠ name) →
      getAttributeValue name (pre ++ JSXAttr.named name (some (.exprContainer .nonLit)) :: post) =
        .ok none) := by
  constructor
  · intro pre post name s h
    rw [getAttributeValue, findAttrValue_append_of_no_match name pre _ h]
    simp [findAttrValue]
  · intro pre post name h
    rw [getAttributeValue, findAttrValue_append_of_no_match name pre _ h]
    simp [findAttrValue, exprJSValue]

/-- C4 witness: a literal url attribute after an unrelated id attribute is
returned verbatim; a non-literal expression value for id reads as
undefined without an error. -/
theorem attributeExtraction_spec_witness :
    getAttributeValue "url"
        [JSXAttr.named "id" (some (.strLit "A")),
         JSXAttr.named "url" (some (.strLit "u1"))] = .ok (some (.str "u1")) ∧
    getAttributeValue "id" [JSXAttr.named "id" (some (.exprContainer .nonLit))] = .ok none := by
  constructor
  · exact attributeExtraction_spec.1 [JSXAttr.named "id" (some (.strLit "A"))] [] "url" "u1"
      (fun a ha => by
        rw [List.mem_singleton] at ha
        exact ⟨"id", some (.strLit "A"), ha, by decide⟩)
  · exact attributeExtraction_spec.2 [] [] "id" (fun a ha => absurd ha (by simp))

/-- C10: Totality of attribute lookup on named attributes.  On an
attribute list of ordinary named attributes none of which carries the
requested name, the lookup returns undefined without throwing; the same
holds when the first matching attribute is present with no value; and the
guarantee does not extend to spread attributes: a single spread attribute
makes the lookup throw the TypeError. -/
theorem attributeLookupTotality_spec :
    (∀ (attrs : List JSXAttr) (name : String),
      (∀ a ∈ attrs, ∃ n v, a = JSXAttr.named n v ∧ n ≠ name) →
      getAttributeValue name attrs = .ok none) ∧
    (∀ (pre post : List JSXAttr) (name : String),
      (∀ a ∈ pre, ∃ n v, a = JSXAttr.named n v ∧ n ≠ name) →
      getAttributeValue name (pre ++ JSXAttr.named name none :: post) = .ok none) ∧
    getAttributeValue "id" [JSXAttr.spread] = .error typeErrorMessage := by
  refine ⟨?_, ?_, rfl⟩
  · intro attrs name h
    have he := findAttrValue_append_of_no_match name attrs [] h
    rw [List.append_nil] at he
    rw [getAttributeValue, he]
    rfl
  · intro pre post name h
    rw [getAttributeValue, findAttrValue_append_of_no_match name pre _ h]
    simp [findAttrValue]

/-- C10 witness: lookup of an absent id among named attributes yields
undefined, and an id attribute with no value yields undefined. -/
theorem attributeLookupTotality_spec_witness :
    getAttributeValue "id" [JSXAttr.named "url" (some (.strLit "u1"))] = .ok none ∧
    getAttributeValue "id" [JSXAttr.named "id" none] = .ok none := by
  constructor
  · exact attributeLookupTotality_spec.1 [JSXAttr.named "url" (some (.strLit "u1"))] "id"
      (fun a ha => by
        rw [List.mem_singleton] at ha
        exact ⟨"url", some (.strLit "u1"), ha, by decide⟩)
  · exact attributeLookupTotality_spec.2.1 [] [] "id" (fun a ha => absurd ha (by simp))

/-- The per-file traversal, on a file whose matching elements carry only
ordinary named attributes, succeeds and yields one row per matching
element, in occurrence order. -/
theorem extractFromElements_eq (filePath : String) (els : List JSXOpeningElement)
    (hns : ∀ el ∈ els, el.name = "DraftImage" → ∀ a ∈ el.attributes, a ≠ JSXAttr.spread) :
    extractFromElements filePath els =
      .ok ((els.filter (fun el => el.name == "DraftImage")).map (elementRow filePath)) := by
  induction els with
  | nil => rfl
  | cons el rest ih =>
    have ihr := ih (fun e he hn => hns e (List.mem_cons_of_mem _ he) hn)
    by_cases hname : el.name = "DraftImage"
    · have hsp := hns el (List.mem_cons_self _ _) hname
      simp only [extractFromElements, List.filter_cons, hname, beq_self_eq_true, if_true,
        extractRow, getAttributeValue_eq_lookup "id" el.attributes hsp,
        getAttributeValue_eq_lookup "url" el.attributes hsp,
        getAttributeValue_eq_lookup "notesForImageCreator" el.attributes hsp,
        ihr, List.map_cons, elementRow]
      rfl
    · have hbeq : (el.name == "DraftImage") = false := by
        simp [hname]
      simp only [extractFromElements, List.filter_cons, hbeq, if_false, ihr]
      simp

/-- C5: Extractor yield.  On a parsed file whose sentinel-tagged elements
have ordinary named attributes and pairwise-distinct identifiers, the
extractor yields exactly one record per matching element, each record
being the created row carrying the element's id, url and comment attribute
values and the file's document name; the record count equals the matching
element count; and the document name of a path ending in a separator-free
final segment is that raw segment (no directory, no extension
stripping). -/
theorem extractorYield_spec (filePath : String) (els : List JSXOpeningElement)
    (hns : ∀ el ∈ els, el.name = "DraftImage" → ∀ a ∈ el.attributes, a ≠ JSXAttr.spread)
    (_hdist : (((els.filter (fun el => el.name == "DraftImage")).map
        (fun el => lookupAttrValue "id" el.attributes)).Pairwise (· ≠ ·))) :
    extractFromElements filePath els =
      .ok ((els.filter (fun el => el.name == "DraftImage")).map (elementRow filePath)) ∧
    (∀ rows, extractFromElements filePath els = .ok rows →
      rows.length = (els.filter (fun el => el.name == "DraftImage")).length) ∧
    (∀ (dir base : String), pathSep ∉ base.toList →
      documentName (dir ++ String.singleton pathSep ++ base) = base) := by
  have heq := extractFromElements_eq filePath els hns
  refine ⟨heq, fun rows hrows => ?_, documentName_final_segment⟩
  rw [heq] at hrows
  cases hrows
  simp

/-- C5 witness: a file with two sentinel elements (ids A and B) and one
unrelated element yields exactly the two expected rows, and the document
name of the file path is its raw final segment. -/
theorem extractorYield_spec_witness :
    extractFromElements "pages/home.jsx"
        [⟨"DraftImage", [JSXAttr.named "id" (some (.strLit "A")),
            JSXAttr.named "url" (some (.strLit "uA")),
            JSXAttr.named "notesForImageCreator" (some (.strLit "nA"))]⟩,
         ⟨"img", []⟩,
         ⟨"DraftImage", [JSXAttr.named "id" (some (.strLit "B"))]⟩] =
      .ok [[some (.str "A"), some (.str "uA"), some (.str "nA"), some (.str "home.jsx"),
            some (.str ""), some (.str "No review"), some (.str ""),
            some (.str "No review"), some (.str "")],
           [some (.str "B"), none, none, some (.str "home.jsx"),
            some (.str ""), some (.str "No review"), some (.str ""),
            some (.str "No review"), some (.str "")]] ∧
    documentName "pages/home.jsx" = "home.jsx" := by
  have h := extractorYield_spec "pages/home.jsx"
      [⟨"DraftImage", [JSXAttr.named "id" (some (.strLit "A")),
          JSXAttr.named "url" (some (.strLit "uA")),
          JSXAttr.named "notesForImageCreator" (some (.strLit "nA"))]⟩,
       ⟨"img", []⟩,
       ⟨"DraftImage", [JSXAttr.named "id" (some (.strLit "B"))]⟩]
      (by decide) (by decide)
  constructor
  · rw [h.1]; rfl
  · exact h.2.2 "pages" "home.jsx" (by decide)
